import Mathlib

/-!
Shallow embedding of the content authorization/lifecycle core of the
Hadars-Blog Flask application (src/server.py, src/forms.py).

The persistence layer is modelled as explicit state passing over a
record of the three ORM tables (users, posts, comments).  The declared
SQL uniqueness constraints (User.email unique=True at server.py:45,
Post.title unique=True at server.py:59) are modelled at commit points:
a commit that would violate them returns the integrityError outcome
(the raised sqlalchemy IntegrityError) and leaves the state unchanged.
-/

namespace Blog

/-- User row (server.py:41-53).  classification: 0 guest, 1 user, 2 admin. -/
structure User where
  id : Nat
  email : String
  password : String
  name : String
  classification : Nat
deriving Repr, DecidableEq

/-- Post row (server.py:55-65).  Dates are modelled as day numbers. -/
structure Post where
  id : Nat
  title : String
  subtitle : String
  img_url : String
  author : String
  body : String
  date : Nat
deriving Repr, DecidableEq

/-- Comment row (server.py:67-77). -/
structure Comment where
  id : Nat
  user_id : Nat
  post_id : Nat
  body : String
  approved : Bool
deriving Repr, DecidableEq

/-- The three tables of blog.db. -/
structure DBState where
  users : List User
  posts : List Post
  comments : List Comment
deriving Repr, DecidableEq

/-- The fields submitted through CreatePostForm / EditPostForm (forms.py:14-30). -/
structure PostFields where
  title : String
  subtitle : String
  img_url : String
  author : String
  body : String
deriving Repr, DecidableEq

/-- Outcome of a route handler: the typed failure pages, the raised
IntegrityError of a failed commit, or the redirect issued on success. -/
inductive Result where
  | unauthorized
  | notFound
  | duplicateTitle
  | validationError
  | integrityError
  | okHome (new_id : Nat)
  | okPost (post_id : Nat)
deriving Repr, DecidableEq

/-- GUEST_CLASSIFICATION imported from constants (server.py:8); its value 0
is documented at server.py:48 (0 will be undocumented guests). -/
def GUEST_CLASSIFICATION : Nat := 0

/-- The declared unique=True constraint on Post.title (server.py:59):
no two rows share a title. -/
def titlesUnique : List Post → Bool
  | [] => true
  | p :: rest => rest.all (fun q => p.title != q.title) && titlesUnique rest

/-- The declared unique=True constraint on User.email (server.py:45). -/
def emailsUnique : List User → Bool
  | [] => true
  | u :: rest => rest.all (fun v => u.email != v.email) && emailsUnique rest

/-- Primary-key uniqueness of the comments table (server.py:70). -/
def commentIdsUnique : List Comment → Bool
  | [] => true
  | c :: rest => rest.all (fun d => c.id != d.id) && commentIdsUnique rest

/-- Primary-key uniqueness of the posts table (server.py:58). -/
def postIdsUnique : List Post → Bool
  | [] => true
  | p :: rest => rest.all (fun q => p.id != q.id) && postIdsUnique rest

/-- The admin bootstrap block run at module scope on every process start
(server.py:80-88): unconditionally adds a classification-2 user built from
the ADMIN_* environment values and commits; the commit enforces the unique
email constraint, raising IntegrityError when the email is already stored. -/
def bootstrap (s : DBState) (adminEmail adminPasswordHash adminName : String)
    (newId : Nat) : Result × DBState :=
  let new_user : User :=
    { id := newId, email := adminEmail, password := adminPasswordHash,
      name := adminName, classification := 2 }
  let users := s.users ++ [new_user]
  if emailsUnique users then (.okHome newId, { s with users := users })
  else (.integrityError, s)

/-- The comment query of show_post (server.py:303): comments of the given
post id ordered by approved descending (true rows before false rows,
ties in stored order). -/
def listComments (s : DBState) (post_id : Nat) : List Comment :=
  let rel := s.comments.filter (fun c => c.post_id == post_id)
  rel.filter (fun c => c.approved) ++ rel.filter (fun c => !c.approved)

/-- create_post (server.py:255-286).  formOk models form.validate_on_submit;
importDate is the date captured once at class definition time
(server.py:64, default evaluated at module import), which is what the
column default stamps on the inserted row — create_post passes no date. -/
def create_post (s : DBState) (level : Nat) (formOk : Bool) (f : PostFields)
    (importDate newId : Nat) : Result × DBState :=
  if level < 2 then (.unauthorized, s)
  else if formOk then
    let matching_post := s.posts.filter (fun p => p.title == f.title)
    if !matching_post.isEmpty then (.duplicateTitle, s)
    else
      let new_post : Post :=
        { id := newId, title := f.title, subtitle := f.subtitle,
          img_url := f.img_url, author := f.author, body := f.body,
          date := importDate }
      let posts := s.posts ++ [new_post]
      if titlesUnique posts then (.okPost newId, { s with posts := posts })
      else (.integrityError, s)
  else (.validationError, s)

/-- edit_post (server.py:312-347): admin gate, existence lookup, then an
unconditional overwrite of all fields with date reset to now; the commit
enforces the unique title constraint (there is no explicit duplicate
check in this route). -/
def edit_post (s : DBState) (level : Nat) (post_id : Nat) (formOk : Bool)
    (f : PostFields) (now : Nat) : Result × DBState :=
  if level < 2 then (.unauthorized, s)
  else match s.posts.find? (fun p => p.id == post_id) with
    | none => (.notFound, s)
    | some _ =>
      if formOk then
        let posts := s.posts.map (fun p =>
          if p.id == post_id then
            { p with
                title := f.title
                subtitle := f.subtitle
                img_url := f.img_url
                author := f.author
                body := f.body
                date := now }
          else p)
        if titlesUnique posts then (.okPost post_id, { s with posts := posts })
        else (.integrityError, s)
      else (.validationError, s)

/-- delete_post (server.py:349-371): admin gate, lookup, then delete; the
cascade declared on Post.comments (server.py:65) removes every comment of
the post in the same commit. -/
def delete_post (s : DBState) (level : Nat) (post_id : Nat) : Result × DBState :=
  if level < 2 then (.unauthorized, s)
  else match s.posts.find? (fun p => p.id == post_id) with
    | none => (.notFound, s)
    | some _ =>
      (.okHome 0,
       { s with posts := s.posts.filter (fun p => p.id != post_id),
                comments := s.comments.filter (fun c => c.post_id != post_id) })

/-- comment_post (server.py:373-396): member gate (level 1), post lookup,
then insert of a comment with approved=False. -/
def comment_post (s : DBState) (level : Nat) (user_id : Nat) (post_id : Nat)
    (formOk : Bool) (body : String) (newId : Nat) : Result × DBState :=
  if level < 1 then (.unauthorized, s)
  else match s.posts.find? (fun p => p.id == post_id) with
    | none => (.notFound, s)
    | some _ =>
      if formOk then
        let new_comment : Comment :=
          { id := newId, user_id := user_id, post_id := post_id,
            body := body, approved := false }
        (.okPost post_id, { s with comments := s.comments ++ [new_comment] })
      else (.validationError, s)

/-- approve_comment (server.py:398-414): admin gate, comment lookup, set
approved to True, redirect to the parent post. -/
def approve_comment (s : DBState) (level : Nat) (comment_id : Nat) :
    Result × DBState :=
  if level < 2 then (.unauthorized, s)
  else match s.comments.find? (fun c => c.id == comment_id) with
    | none => (.notFound, s)
    | some c =>
      (.okPost c.post_id,
       { s with comments := s.comments.map (fun d =>
           if d.id == comment_id then { d with approved := true } else d) })

/-- delete_comment (server.py:416-435): admin gate, comment lookup, capture
of the parent post id before the delete, then delete. -/
def delete_comment (s : DBState) (level : Nat) (comment_id : Nat) :
    Result × DBState :=
  if level < 2 then (.unauthorized, s)
  else match s.comments.find? (fun c => c.id == comment_id) with
    | none => (.notFound, s)
    | some c =>
      let temp_post_id := c.post_id
      (.okPost temp_post_id,
       { s with comments := s.comments.filter (fun d => d.id != comment_id) })

/-- The actions guarded across the route handlers. -/
inductive Action where
  | viewContent
  | comment
  | createPost
  | editPost
  | deletePost
  | approveComment
  | deleteComment
deriving Repr, DecidableEq

/-- Minimum classification level demanded by each route gate: the inline
checks are level < 1 at server.py:376 for commenting, level < 2 at
server.py:264, 324, 360, 401 and 419 for the admin routes, and no check
on the read routes. -/
def minLevel : Action → Nat
  | .viewContent => 0
  | .comment => 1
  | .createPost => 2
  | .editPost => 2
  | .deletePost => 2
  | .approveComment => 2
  | .deleteComment => 2

/-- The authorization gate consolidating the inline route checks:
allowed exactly when the caller level is not below the action threshold. -/
def authorize (level : Nat) (a : Action) : Bool :=
  minLevel a ≤ level

/-- A single mutating request against the store, used to state frame
properties over all operations at once. -/
inductive Op where
  | bootstrapOp (email pw nm : String) (newId : Nat)
  | createPostOp (formOk : Bool) (f : PostFields) (importDate newId : Nat)
  | editPostOp (post_id : Nat) (formOk : Bool) (f : PostFields) (now : Nat)
  | deletePostOp (post_id : Nat)
  | commentPostOp (user_id post_id : Nat) (formOk : Bool) (body : String) (newId : Nat)
  | approveCommentOp (comment_id : Nat)
  | deleteCommentOp (comment_id : Nat)
deriving Repr, DecidableEq

/-- Dispatch an operation at a caller level. -/
def runOp (s : DBState) (level : Nat) : Op → Result × DBState
  | .bootstrapOp e p n i => bootstrap s e p n i
  | .createPostOp ok f d i => create_post s level ok f d i
  | .editPostOp pid ok f now => edit_post s level pid ok f now
  | .deletePostOp pid => delete_post s level pid
  | .commentPostOp uid pid ok b i => comment_post s level uid pid ok b i
  | .approveCommentOp cid => approve_comment s level cid
  | .deleteCommentOp cid => delete_comment s level cid

/-! Concrete rows and stores used to evaluate the model. -/

/-- Concrete valid form fields. -/
def exFields : PostFields :=
  { title := "Hello", subtitle := "sub", img_url := "http://img.example/x.png",
    author := "Ann", body := "hello world" }

/-- A second set of fields with a different title. -/
def exFields2 : PostFields :=
  { title := "World", subtitle := "subB", img_url := "http://img.example/y.png",
    author := "Bob", body := "second body" }

/-- A stored post titled Hello. -/
def exPost : Post :=
  { id := 1, title := "Hello", subtitle := "sub", img_url := "http://img.example/x.png",
    author := "Ann", body := "hello world", date := 10 }

/-- A second stored post titled World. -/
def exPost2 : Post :=
  { id := 2, title := "World", subtitle := "subB", img_url := "http://img.example/y.png",
    author := "Bob", body := "second body", date := 10 }

/-- The seeded admin row. -/
def exAdmin : User :=
  { id := 1, email := "admin@blog.com", password := "digest", name := "Hadar",
    classification := 2 }

/-- An empty store. -/
def exStateEmpty : DBState := { users := [], posts := [], comments := [] }

/-- A store whose post 1 has one approved and one unapproved comment. -/
def exStateC1 : DBState :=
  { users := [exAdmin], posts := [exPost],
    comments := [{ id := 1, user_id := 1, post_id := 1, body := "first", approved := true },
                 { id := 2, user_id := 1, post_id := 1, body := "later", approved := false }] }

/-- A store with a single post titled Hello. -/
def exStateOnePost : DBState := { users := [exAdmin], posts := [exPost], comments := [] }

/-- A store with two posts of distinct titles. -/
def exStateTwoPosts : DBState :=
  { users := [exAdmin], posts := [exPost, exPost2], comments := [] }

/-- A store whose post 1 carries three comments. -/
def exStateThreeComments : DBState :=
  { users := [exAdmin], posts := [exPost],
    comments := [{ id := 1, user_id := 1, post_id := 1, body := "one..", approved := false },
                 { id := 2, user_id := 1, post_id := 1, body := "two..", approved := true },
                 { id := 3, user_id := 1, post_id := 1, body := "three", approved := false }] }

/-- A store with a single already-approved comment. -/
def exStateApproved : DBState :=
  { users := [exAdmin], posts := [exPost],
    comments := [{ id := 1, user_id := 1, post_id := 1, body := "nice!", approved := true }] }

/-- A store with a single unapproved comment. -/
def exStateUnapproved : DBState :=
  { users := [exAdmin], posts := [exPost],
    comments := [{ id := 1, user_id := 1, post_id := 1, body := "nice!", approved := false }] }

/-! Helper lemmas. -/

/-- A block of true flags followed by a block of false flags is sorted
descendingly. -/
theorem sorted_desc_of_blocks (xs ys : List Bool)
    (hx : ∀ x ∈ xs, x = true) (hy : ∀ y ∈ ys, y = false) :
    List.Sorted (fun a b => b ≤ a) (xs ++ ys) := by
  apply List.pairwise_append.mpr
  refine ⟨List.pairwise_of_forall_mem_list ?_, List.pairwise_of_forall_mem_list ?_, ?_⟩
  · intro a ha b _
    rw [hx a ha]
    exact Bool.le_true _
  · intro a _ b hb
    rw [hy b hb]
    exact Bool.false_le _
  · intro a ha b _
    rw [hx a ha]
    exact Bool.le_true _

/-! Theorems for the claims. -/

/-- C1, as stated, is false on the code: in the store exStateC1 the comment
query of show_post returns the approved comment of post 1 before the
unapproved one, because ORDER BY approved DESC places true rows first. -/
theorem listComments_unapproved_first_counterexample :
    (listComments exStateC1 1).map Comment.approved = [true, false] ∧
    ¬ List.Sorted (fun a b => a ≤ b) ((listComments exStateC1 1).map Comment.approved) := by
  constructor
  · rfl
  · decide

/-- C1 amended: listComments(P) returns only comments whose post_id equals P,
and orders approved comments (approved=true) before unapproved ones. -/
theorem listComments_filters_and_orders (s : DBState) (post_id : Nat) :
    (∀ c ∈ listComments s post_id, c.post_id = post_id) ∧
    List.Sorted (fun a b => b ≤ a) ((listComments s post_id).map Comment.approved) := by
  constructor
  · intro c hc
    simp only [listComments] at hc
    rcases List.mem_append.mp hc with h | h <;>
    · have h1 := (List.mem_filter.mp h).1
      have h2 := (List.mem_filter.mp h1).2
      exact beq_iff_eq.mp h2
  · simp only [listComments]
    rw [List.map_append]
    apply sorted_desc_of_blocks
    · intro x hx
      obtain ⟨c, hc, rfl⟩ := List.mem_map.mp hx
      exact (List.mem_filter.mp hc).2
    · intro x hx
      obtain ⟨c, hc, rfl⟩ := List.mem_map.mp hx
      have h2 := (List.mem_filter.mp hc).2
      simp only [Bool.not_eq_eq_eq_not, Bool.not_true] at h2
      exact h2

/-- C2: every mutating route invoked by a guest (classification level 0)
short-circuits to Unauthorized before any existence lookup and leaves the
store unchanged, whatever the target ids are. -/
theorem guest_always_unauthorized (s : DBState) (f : PostFields) (b : String)
    (post_id comment_id user_id newId importDate now : Nat) (formOk : Bool) :
    comment_post s GUEST_CLASSIFICATION user_id post_id formOk b newId = (.unauthorized, s) ∧
    create_post s GUEST_CLASSIFICATION formOk f importDate newId = (.unauthorized, s) ∧
    edit_post s GUEST_CLASSIFICATION post_id formOk f now = (.unauthorized, s) ∧
    delete_post s GUEST_CLASSIFICATION post_id = (.unauthorized, s) ∧
    approve_comment s GUEST_CLASSIFICATION comment_id = (.unauthorized, s) ∧
    delete_comment s GUEST_CLASSIFICATION comment_id = (.unauthorized, s) :=
  ⟨rfl, rfl, rfl, rfl, rfl, rfl⟩

/-- C5: the code stamps every inserted post with the date captured once at
module import (the column default of server.py:64 is evaluated at class
definition time); evaluated in a process imported on day 10, create_post
inserts a post dated 10 no matter on which later day the request runs —
create_post passes no current date at all. -/
theorem create_post_stamps_import_date :
    (create_post exStateEmpty 2 true exFields 10 1).1 = Result.okPost 1 ∧
    ((create_post exStateEmpty 2 true exFields 10 1).2.posts.map Post.date) = [10] := by
  constructor
  · rfl
  · rfl

/-- C7: the authorization gate consolidating the route checks is monotonic
in the caller level. -/
theorem authorize_monotone (l : Nat) (a : Action) (h : authorize l a = true) :
    authorize (l + 1) a = true := by
  simp only [authorize, decide_eq_true_eq] at h ⊢
  omega

/-- Witness: a level-1 caller may comment, hence so may a level-2 caller. -/
theorem authorize_monotone_witness :
    authorize 1 Action.comment = true ∧ authorize 2 Action.comment = true :=
  ⟨by decide, authorize_monotone 1 Action.comment (by decide)⟩

/-- C8: a second process start against a store already holding a user with
the admin email: the unconditional insert of the bootstrap block violates
the unique email constraint, the commit fails (IntegrityError, modelled as
integrityError) so startup is prevented; the stored state is unchanged and
still holds exactly one classification-2 user with that email. -/
theorem bootstrap_rerun_integrity_error :
    bootstrap exStateOnePost "admin@blog.com" "digest2" "Hadar" 2 =
      (Result.integrityError, exStateOnePost) ∧
    (exStateOnePost.users.filter
      (fun u => u.email == "admin@blog.com" && u.classification == 2)).length = 1 := by
  constructor
  · rfl
  · rfl

/-- titlesUnique spelled as pairwise title distinctness. -/
theorem titlesUnique_pairwise (l : List Post) (h : titlesUnique l = true) :
    l.Pairwise (fun p q => p.title ≠ q.title) := by
  induction l with
  | nil => exact List.Pairwise.nil
  | cons a t ih =>
    simp only [titlesUnique, Bool.and_eq_true, List.all_eq_true] at h
    exact List.Pairwise.cons (fun q hq => bne_iff_ne.mp (h.1 q hq)) (ih h.2)

/-- In a title-unique table, filtering on the title of a stored post
returns exactly that post. -/
theorem filter_title_of_unique (l : List Post) (P : Post)
    (hu : titlesUnique l = true) (hP : P ∈ l) :
    l.filter (fun q => q.title == P.title) = [P] := by
  induction l with
  | nil => cases hP
  | cons a t ih =>
    simp only [titlesUnique, Bool.and_eq_true, List.all_eq_true] at hu
    rcases List.mem_cons.mp hP with rfl | hmem
    · rw [List.filter_cons_of_pos (by simp)]
      have hnil : t.filter (fun q => q.title == P.title) = [] := by
        apply List.filter_eq_nil_iff.mpr
        intro q hq hbeq
        exact bne_iff_ne.mp (hu.1 q hq) (beq_iff_eq.mp hbeq).symm
      rw [hnil]
    · rw [List.filter_cons_of_neg ?_]
      · exact ih hu.2 hmem
      · intro hbeq
        exact bne_iff_ne.mp (hu.1 P hmem) (beq_iff_eq.mp hbeq)

/-- Title distinctness is a symmetric relation. -/
theorem ne_title_symm : Symmetric (fun p q : Post => p.title ≠ q.title) :=
  fun _ _ hxy he => hxy he.symm

/-- Comment id distinctness is a symmetric relation. -/
theorem ne_comment_id_symm : Symmetric (fun c d : Comment => c.id ≠ d.id) :=
  fun _ _ hxy he => hxy he.symm

/-- Renaming one stored post to the title of another distinct stored post
breaks title uniqueness of the updated table. -/
theorem titlesUnique_map_rename_false (l : List Post) (A B : Post) (g : Post → Post)
    (hA : A ∈ l) (hB : B ∈ l)
    (hgA_id : (g A).id = A.id) (hgA_title : (g A).title = B.title)
    (hgB : g B = B) (hne : A.id ≠ B.id) :
    titlesUnique (l.map g) = false := by
  cases htu : titlesUnique (l.map g) with
  | false => rfl
  | true =>
    exfalso
    have hpw := titlesUnique_pairwise _ htu
    have hmemA : g A ∈ l.map g := List.mem_map_of_mem g hA
    have hmemB : B ∈ l.map g := hgB ▸ List.mem_map_of_mem g hB
    have hneq : g A ≠ B := fun he => hne (by rw [← hgA_id, he])
    have hdif := List.Pairwise.forall ne_title_symm hpw hmemA hmemB hneq
    exact hdif (by rw [hgA_title])

/-- Reduction of edit_post for an admin with a validating form on a post
that resolves. -/
theorem edit_post_found (s : DBState) (post_id : Nat) (f : PostFields) (now : Nat)
    (q : Post) (hq : s.posts.find? (fun p => p.id == post_id) = some q) :
    edit_post s 2 post_id true f now =
      (if titlesUnique (s.posts.map (fun p =>
          if p.id == post_id then
            { p with
                title := f.title
                subtitle := f.subtitle
                img_url := f.img_url
                author := f.author
                body := f.body
                date := now }
          else p)) then
        (.okPost post_id, { s with posts := s.posts.map (fun p =>
          if p.id == post_id then
            { p with
                title := f.title
                subtitle := f.subtitle
                img_url := f.img_url
                author := f.author
                body := f.body
                date := now }
          else p) })
      else (.integrityError, s)) := by
  unfold edit_post
  rw [hq]
  rfl

/-- commentIdsUnique spelled as pairwise id distinctness. -/
theorem commentIdsUnique_pairwise (l : List Comment) (h : commentIdsUnique l = true) :
    l.Pairwise (fun c d => c.id ≠ d.id) := by
  induction l with
  | nil => exact List.Pairwise.nil
  | cons a t ih =>
    simp only [commentIdsUnique, Bool.and_eq_true, List.all_eq_true] at h
    exact List.Pairwise.cons (fun d hd => bne_iff_ne.mp (h.1 d hd)) (ih h.2)

/-- In an id-unique comment table, find? on the id of a stored comment
returns that comment. -/
theorem find_comment_of_unique_mem (l : List Comment) (c : Comment)
    (hu : commentIdsUnique l = true) (hc : c ∈ l) :
    l.find? (fun d => d.id == c.id) = some c := by
  induction l with
  | nil => cases hc
  | cons a t ih =>
    simp only [commentIdsUnique, Bool.and_eq_true, List.all_eq_true] at hu
    rcases List.mem_cons.mp hc with rfl | hmem
    · simp [List.find?]
    · have hne : (a.id == c.id) = false :=
        beq_eq_false_iff_ne.mpr (bne_iff_ne.mp (hu.1 c hmem))
      simp only [List.find?, hne]
      exact ih hu.2 hmem

/-- Setting approved on comments that already satisfy it is the identity. -/
theorem map_approve_eq_self (l : List Comment) (cid : Nat)
    (h : ∀ d ∈ l, d.id = cid → d.approved = true) :
    l.map (fun d => if d.id == cid then { d with approved := true } else d) = l := by
  have hid : ∀ d ∈ l, (if d.id == cid then { d with approved := true } else d) = d := by
    intro d hd
    by_cases hb : (d.id == cid) = true
    · rw [if_pos hb]
      have happ := h d hd (beq_iff_eq.mp hb)
      obtain ⟨i, u, p, b, ap⟩ := d
      simp only at happ
      rw [happ]
    · rw [if_neg hb]
  rw [List.map_congr_left hid]
  exact List.map_id' l

/-- C3: createPost by an admin with a validating form whose title is already
stored: DuplicateTitle is returned, nothing is inserted, and the table still
holds exactly one post with that title. -/
theorem create_post_duplicate_title_rejected (s : DBState) (P : Post)
    (f : PostFields) (importDate newId : Nat)
    (hu : titlesUnique s.posts = true) (hP : P ∈ s.posts) (hf : f.title = P.title) :
    create_post s 2 true f importDate newId = (.duplicateTitle, s) ∧
    ((create_post s 2 true f importDate newId).2.posts.filter
        (fun q => q.title == P.title)).length = 1 := by
  have hfil := filter_title_of_unique s.posts P hu hP
  have hred : create_post s 2 true f importDate newId = (.duplicateTitle, s) := by
    unfold create_post
    simp only [hf]
    rw [hfil]
    rfl
  refine ⟨hred, ?_⟩
  rw [hred, hfil]
  rfl

/-- Witness: a second Hello post in exStateOnePost is rejected and the store
keeps exactly one Hello post. -/
theorem create_post_duplicate_title_rejected_witness :
    create_post exStateOnePost 2 true exFields 11 2 = (.duplicateTitle, exStateOnePost) ∧
    ((create_post exStateOnePost 2 true exFields 11 2).2.posts.filter
        (fun q => q.title == exPost.title)).length = 1 :=
  create_post_duplicate_title_rejected exStateOnePost exPost exFields 11 2
    (by decide) (by decide) (by decide)

/-- C4: editPost renaming a stored post A to the title of another stored
post B fails at commit against the unique title constraint and the store is
left unchanged — the rename is rejected, never applied silently. -/
theorem edit_post_duplicate_title_rejected (s : DBState) (A B : Post)
    (f : PostFields) (now : Nat)
    (hA : A ∈ s.posts) (hB : B ∈ s.posts) (hne : A.id ≠ B.id)
    (hf : f.title = B.title) :
    edit_post s 2 A.id true f now = (.integrityError, s) := by
  have hsome : (s.posts.find? (fun p => p.id == A.id)).isSome = true := by
    rw [List.find?_isSome]
    exact ⟨A, hA, by simp⟩
  obtain ⟨q, hq⟩ := Option.isSome_iff_exists.mp hsome
  rw [edit_post_found s A.id f now q hq]
  have hBid : (B.id == A.id) = false := beq_eq_false_iff_ne.mpr (Ne.symm hne)
  rw [titlesUnique_map_rename_false s.posts A B
    (fun p =>
      if p.id == A.id then
        { p with
            title := f.title
            subtitle := f.subtitle
            img_url := f.img_url
            author := f.author
            body := f.body
            date := now }
      else p)
    hA hB (by simp) (by simp [hf]) (by simp [hBid]) hne]
  rfl

/-- Witness: renaming exPost to the title of exPost2 in exStateTwoPosts is
rejected with the store unchanged. -/
theorem edit_post_duplicate_title_rejected_witness :
    edit_post exStateTwoPosts 2 1 true exFields2 30 = (.integrityError, exStateTwoPosts) :=
  edit_post_duplicate_title_rejected exStateTwoPosts exPost exPost2 exFields2 30
    (by decide) (by decide) (by decide) (by decide)

/-- C6: a successful admin deletePost removes the post and cascades to all
of its comments: afterwards no stored comment references the post id. -/
theorem delete_post_cascades (s : DBState) (post_id : Nat)
    (h : (s.posts.find? (fun p => p.id == post_id)).isSome = true) :
    (delete_post s 2 post_id).1 = .okHome 0 ∧
    (delete_post s 2 post_id).2.posts.find? (fun p => p.id == post_id) = none ∧
    ((delete_post s 2 post_id).2.comments.filter
        (fun c => c.post_id == post_id)).length = 0 := by
  obtain ⟨p, hp⟩ := Option.isSome_iff_exists.mp h
  have hred : delete_post s 2 post_id =
      (.okHome 0, { s with posts := s.posts.filter (fun q => q.id != post_id),
                           comments := s.comments.filter (fun c => c.post_id != post_id) }) := by
    unfold delete_post
    rw [hp]
    rfl
  rw [hred]
  refine ⟨rfl, ?_, ?_⟩
  · apply List.find?_eq_none.mpr
    intro q hq hbeq
    exact bne_iff_ne.mp (List.mem_filter.mp hq).2 (beq_iff_eq.mp hbeq)
  · have hnil : ((s.comments.filter (fun c => c.post_id != post_id)).filter
        (fun c => c.post_id == post_id)) = [] := by
      apply List.filter_eq_nil_iff.mpr
      intro c hcm hbeq
      exact bne_iff_ne.mp (List.mem_filter.mp hcm).2 (beq_iff_eq.mp hbeq)
    simp only [hnil]
    rfl

/-- Witness: deleting post 1 of exStateThreeComments removes it and its
three comments. -/
theorem delete_post_cascades_witness :
    (delete_post exStateThreeComments 2 1).1 = Result.okHome 0 ∧
    (delete_post exStateThreeComments 2 1).2.posts.find? (fun p => p.id == 1) = none ∧
    ((delete_post exStateThreeComments 2 1).2.comments.filter
        (fun c => c.post_id == 1)).length = 0 :=
  delete_post_cascades exStateThreeComments 1 (by decide)

/-- C10: approveComment by an admin on an already-approved stored comment
succeeds again, returns the same parent post id and leaves the whole store
unchanged. -/
theorem approve_comment_idempotent (s : DBState) (c : Comment)
    (hu : commentIdsUnique s.comments = true) (hc : c ∈ s.comments)
    (happ : c.approved = true) :
    approve_comment s 2 c.id = (.okPost c.post_id, s) := by
  have hfind := find_comment_of_unique_mem s.comments c hu hc
  have hmap : s.comments.map
      (fun d => if d.id == c.id then { d with approved := true } else d) = s.comments := by
    apply map_approve_eq_self
    intro d hd hidc
    by_cases hdc : d = c
    · rw [hdc]; exact happ
    · exfalso
      have hpw := commentIdsUnique_pairwise s.comments hu
      exact List.Pairwise.forall ne_comment_id_symm hpw hd hc hdc hidc
  unfold approve_comment
  rw [hfind, hmap]
  rfl

/-- Witness: re-approving the approved comment 1 of exStateApproved changes
nothing and redirects to post 1. -/
theorem approve_comment_idempotent_witness :
    approve_comment exStateApproved 2 1 = (.okPost 1, exStateApproved) :=
  approve_comment_idempotent exStateApproved
    { id := 1, user_id := 1, post_id := 1, body := "nice!", approved := true }
    (by decide) (by decide) (by decide)

/-- C9: across every operation of the controller, a comment present in the
store afterwards is either a previously stored comment left fully unchanged,
a previously stored comment whose approved flag alone was set to true by
approveComment, or the fresh approved=false comment inserted by
comment_post; no operation alters the id, body, user_id or post_id of an
existing comment. -/
theorem comment_fields_immutable_except_approved
    (s : DBState) (level : Nat) (o : Op) (c' : Comment)
    (h : c' ∈ (runOp s level o).2.comments) :
    c' ∈ s.comments ∨
    (∃ cid, o = .approveCommentOp cid ∧
      ∃ c, c ∈ s.comments ∧ c.id = cid ∧ c' = { c with approved := true }) ∨
    (∃ uid pid ok b nid, o = .commentPostOp uid pid ok b nid ∧
      c' = { id := nid, user_id := uid, post_id := pid, body := b,
             approved := false }) := by
  cases o with
  | bootstrapOp e pw nm i =>
    left
    simp only [runOp, bootstrap] at h
    split at h <;> simpa using h
  | createPostOp ok f d i =>
    left
    simp only [runOp, create_post] at h
    split at h
    · simpa using h
    · split at h
      · split at h
        · simpa using h
        · split at h <;> simpa using h
      · simpa using h
  | editPostOp pid ok f now =>
    left
    simp only [runOp, edit_post] at h
    split at h
    · simpa using h
    · split at h
      · simpa using h
      · split at h
        · split at h <;> simpa using h
        · simpa using h
  | deletePostOp pid =>
    left
    simp only [runOp, delete_post] at h
    split at h
    · simpa using h
    · split at h
      · simpa using h
      · exact (List.mem_filter.mp h).1
  | commentPostOp uid pid ok b nid =>
    simp only [runOp, comment_post] at h
    split at h
    · left; simpa using h
    · split at h
      · left; simpa using h
      · split at h
        · rcases List.mem_append.mp h with hmem | hnew
          · left; exact hmem
          · right; right
            exact ⟨uid, pid, ok, b, nid, rfl, List.mem_singleton.mp hnew⟩
        · left; simpa using h
  | approveCommentOp cid =>
    simp only [runOp, approve_comment] at h
    split at h
    · left; simpa using h
    · split at h
      · left; simpa using h
      · rcases List.mem_map.mp h with ⟨a, ha, hga⟩
        by_cases hb : (a.id == cid) = true
        · right; left
          refine ⟨cid, rfl, a, ha, beq_iff_eq.mp hb, ?_⟩
          rw [← hga, if_pos hb]
        · left
          rw [← hga, if_neg hb]
          exact ha
  | deleteCommentOp cid =>
    left
    simp only [runOp, delete_comment] at h
    split at h
    · simpa using h
    · split at h
      · simpa using h
      · exact (List.mem_filter.mp h).1

/-- Witness: approving comment 1 of exStateUnapproved yields exactly the old
comment with approved set to true. -/
theorem comment_fields_immutable_except_approved_witness :
    (⟨1, 1, 1, "nice!", true⟩ : Comment) ∈ exStateUnapproved.comments ∨
    (∃ cid, Op.approveCommentOp 1 = .approveCommentOp cid ∧
      ∃ c, c ∈ exStateUnapproved.comments ∧ c.id = cid ∧
        (⟨1, 1, 1, "nice!", true⟩ : Comment) = { c with approved := true }) ∨
    (∃ uid pid ok b nid, Op.approveCommentOp 1 = .commentPostOp uid pid ok b nid ∧
      (⟨1, 1, 1, "nice!", true⟩ : Comment) =
        { id := nid, user_id := uid, post_id := pid, body := b,
          approved := false }) :=
  comment_fields_immutable_except_approved exStateUnapproved 2
    (.approveCommentOp 1) ⟨1, 1, 1, "nice!", true⟩ (by decide)

end Blog
